import Mathlib

/-!
Shallow embedding of `src/bmw_gear_selector/bmw_gws.py` (diagnostic session,
DTC decoder and the oracle-driven discovery algorithms) together with proofs
about the embedded functions.

Modelling conventions:
* Python `bytes` / byte lists are `List Nat` (each element a byte value).
* A raw CAN frame is `CanMsg` (arbitration id + data), and the bus is modelled
  by the trace of frames sent so far (`List CanMsg`).
* The external world (the ECU answering ISO-TP diagnostic requests) is an
  `Env`: a function from the current sent-frame trace, the retry attempt
  index and the request bytes to an optional response (`none` = timeout).
* Python exceptions become explicit error values: `DecodeErr` for the
  failures that can arise inside `decode_dtcdata` (including subscripting
  `None` / an empty sequence) and `RunErr` for the discovery routines.
-/

namespace BmwGws

/-- A raw CAN frame: `can.Message(arbitration_id=..., data=...)`. -/
structure CanMsg where
  arbitration_id : Nat
  data : List Nat
deriving DecidableEq

/-- The Python dict `dtcs` built by `decode_dtcdata`, as an ordered
association list from the 3-byte DTC identifier to the status byte.
(The Python key is `dtc.hex()`; since `.hex()` is injective on byte
strings we key directly on the identifier bytes.) -/
abbrev DtcTable := List (List Nat × Nat)

/-- Failures arising inside `decode_dtcdata`:
* `typeError`: `dtcdata[0]` on `None` (Python `TypeError`),
* `indexError`: `dtcdata[0]` on an empty sequence (Python `IndexError`),
* `badTag`: `RuntimeError("Unexpected response tag ...")` (line 60),
* `badLength`: `RuntimeError("Unexpected response length ...")` (line 62). -/
inductive DecodeErr where
  | typeError
  | indexError
  | badTag (b : Nat)
  | badLength (n : Nat)
deriving DecidableEq

/-- Failures of the discovery routines:
* `decodeErr`: a `decode_dtcdata` failure propagating out of `get_dtcs`,
* `attributeError`: `dtcs.get(...)` on `None` (Python `AttributeError`),
* `noValidChecksumFound`: `RuntimeError("No valid checksum found...")`. -/
inductive RunErr where
  | decodeErr (e : DecodeErr)
  | attributeError
  | noValidChecksumFound
deriving DecidableEq

/-- Python dict assignment `d[k] = v`: if the key is present its value is
updated in place, otherwise the pair is appended at the end. -/
def dictInsert (t : DtcTable) (k : List Nat) (v : Nat) : DtcTable :=
  if t.any (fun r => decide (r.1 = k)) then
    t.map (fun r => if r.1 = k then (k, v) else r)
  else
    t ++ [(k, v)]

/-- Python `d.get(k, default)` with the default factored out: `none` stands
for the `"missing"` default used at the call sites. -/
def lookupTable (t : DtcTable) (k : List Nat) : Option Nat :=
  (t.find? (fun r => decide (r.1 = k))).map Prod.snd

/-- The record sequence read by the loop of `decode_dtcdata` (lines 63-72):
`num_dtcs = (len - 3) // 4` records, record `i` being the identifier slice
`dtcdata[3+4i : 3+4i+3]` and the status byte `dtcdata[3+4i+3]`. -/
def decodeRecords (l : List Nat) : List (List Nat × Nat) :=
  (List.range ((l.length - 3) / 4)).map
    (fun i => ((l.drop (3 + 4 * i)).take 3, l.getD (3 + 4 * i + 3) 0))

/-- Folding the records of a response into the Python dict. -/
def buildTable (recs : List (List Nat × Nat)) : DtcTable :=
  recs.foldl (fun t r => dictInsert t r.1 r.2) []

/-- `decode_dtcdata` (lines 58-73).  The argument is `Option` because
`get_supported_dtcs` can pass the `None` result of a timed-out request
straight in; subscripting then raises a `TypeError`.  On an empty byte
sequence `dtcdata[0]` raises an `IndexError`.  The length check mirrors
Python `%` (sign of the divisor), hence the `Int` arithmetic. -/
def decode_dtcdata : Option (List Nat) → Except DecodeErr DtcTable
  | none => .error .typeError
  | some [] => .error .indexError
  | some (tag :: rest) =>
    if tag ≠ 0x59 then .error (.badTag tag)
    else if (((tag :: rest).length : Int) - 3) % 4 ≠ 0 then
      .error (.badLength (tag :: rest).length)
    else .ok (buildTable (decodeRecords (tag :: rest)))

example : decode_dtcdata (some [0x59, 0x02, 0x0C]) = .ok [] := rfl
example : decode_dtcdata (some [0x59, 0x02, 0x0C, 0xe0, 0x94, 0x04, 0x2f])
    = .ok [([0xe0, 0x94, 0x04], 0x2f)] := rfl
example : decode_dtcdata (some [0x59, 0x02]) = .error (.badLength 2) := rfl
example : decode_dtcdata (some [0x12, 0x02, 0x0C]) = .error (.badTag 0x12) := rfl
example : decode_dtcdata (some []) = .error .indexError := rfl
example : decode_dtcdata none = .error .typeError := rfl

/-- One ISO-TP request/response exchange, abstracted: the answer of the ECU
as a function of the attempt index and the request bytes (`none` models a
timeout of `ThreadedBmwIsoTp.request`, returned as Python `None`). -/
abbrev Responder := Nat → List Nat → Option (List Nat)

/-- The retry loop of `get_dtcs` (lines 48-51): `for tries in range(3)`,
issue `[0x19, 0x02, status_mask]`, decode and return on the first non-`None`
response, fall through (returning `None`) once the tries are exhausted. -/
def get_dtcsTries (resp : Responder) (mask : Nat) :
    List Nat → Except DecodeErr (Option DtcTable)
  | [] => .ok none
  | t :: ts =>
    match resp t [0x19, 0x02, mask] with
    | some r => (decode_dtcdata (some r)).map some
    | none => get_dtcsTries resp mask ts

/-- `get_dtcs` (lines 46-51). -/
def get_dtcs (resp : Responder) (mask : Nat) : Except DecodeErr (Option DtcTable) :=
  get_dtcsTries resp mask (List.range 3)

/-- `get_supported_dtcs` (lines 54-55): a single `[0x19, 0x0A]` request whose
possibly-`None` result is passed straight to `decode_dtcdata`. -/
def get_supported_dtcs (resp : Responder) : Except DecodeErr DtcTable :=
  decode_dtcdata (resp 0 [0x19, 0x0A])

/-- The external world seen by the discovery routines: the diagnostic
responder may depend on the trace of raw frames broadcast so far. -/
structure Env where
  dtcResp : List CanMsg → Responder

/-- The 16-frame burst sent by `verify_checksum` (lines 105-107). -/
def burst (payload : List Nat) : List CanMsg :=
  List.replicate 16 ⟨0x3FD, payload⟩

/-- The line `csum_dtc = dtcs.get("......", "missing")` applied to the result
of `get_dtcs`: a decode error propagates, `dtcs.get` on Python `None` raises
an `AttributeError`, and on a real table the lookup yields the status
(`none` standing for the `"missing"` default). -/
def readHealth (key : List Nat) :
    Except DecodeErr (Option DtcTable) → Except RunErr (Option Nat)
  | .error e => .error (.decodeErr e)
  | .ok none => .error .attributeError
  | .ok (some dtcs) => .ok (lookupTable dtcs key)

/-- `verify_checksum` (lines 102-113): send the frame 16 times, wait, then
read the DTCs and compare the status of `e09404` with `0x2e` (the `"missing"`
default compares unequal).  The returned trace extends the input trace by
the burst. -/
def verify_checksum (env : Env) (s : List CanMsg) (payload : List Nat) :
    List CanMsg × Except RunErr Bool :=
  let s' := s ++ burst payload
  (s', (readHealth [0xe0, 0x94, 0x04] (get_dtcs (env.dtcResp s') 0x0C)).map
    (fun st => decide (st = some 0x2e)))

/-- The candidate loop of `find_checksum` (lines 119-122) over an explicit
list of remaining checksum candidates. -/
def find_checksumAux (env : Env) (message : List Nat) (s : List CanMsg) :
    List Nat → List CanMsg × Except RunErr Nat
  | [] => (s, .error .noValidChecksumFound)
  | c :: cs =>
    match verify_checksum env s (c :: message) with
    | (s', .error e) => (s', .error e)
    | (s', .ok b) => if b then (s', .ok c) else find_checksumAux env message s' cs

/-- `find_checksum` (lines 116-122): try every first byte `0x00..0xFF` in
ascending order in front of `message`, returning the first candidate that
`verify_checksum` accepts.  (The `len(message) != 4` check only prints a
warning and does not change behaviour.) -/
def find_checksum (env : Env) (s : List CanMsg) (message : List Nat) :
    List CanMsg × Except RunErr Nat :=
  find_checksumAux env message s (List.range 0x100)

/-- One step of the CRC8 bit loop: shift left, conditionally XOR the
polynomial `0x1D`, truncate to 8 bits. -/
def crcBit (c : Nat) : Nat :=
  if c &&& 0x80 = 0 then (c <<< 1) &&& 0xFF else ((c <<< 1) ^^^ 0x1D) &&& 0xFF

/-- Fold one input byte into the CRC state (MSB first, no reflection), as
`crccheck.crc.Crc8Base` computes it. -/
def crcByte (crc b : Nat) : Nat :=
  (List.range 8).foldl (fun c _ => crcBit c) (crc ^^^ b)

/-- `bmw_3fd_crc` (lines 125-136): CRC8 with polynomial `0x1D`, initial
value `0x00` and output XOR `0x70`, masked to a byte. -/
def bmw_3fd_crc (message : List Nat) : Nat :=
  ((message.foldl crcByte 0x00) ^^^ 0x70) &&& 0xFF

/-- `bmw_197_crc` (lines 138-145): as above with output XOR `0x53`. -/
def bmw_197_crc (message : List Nat) : Nat :=
  ((message.foldl crcByte 0x00) ^^^ 0x53) &&& 0xFF

/-- The probed body for a counter hypothesis (lines 156-157): start from
`[0xFF, 0xFF, 0xFF, 0xFF]` and overwrite position `b` with the value `v`. -/
def counterBody (b v : Nat) : List Nat :=
  List.set [0xFF, 0xFF, 0xFF, 0xFF] b v

/-- The frames sent while cycling one hypothesis `(b, mask, shift)` of
`find_counter_fields` (lines 155-164): the counter runs over
`list(range(mask + 1)) * 4`, each value shifted into place and prefixed with
the `bmw_3fd_crc` checksum of the body. -/
def hypFrames (b mask shift : Nat) : List CanMsg :=
  ((List.replicate 4 (List.range (mask + 1))).flatten).map
    (fun c =>
      ⟨0x3FD, bmw_3fd_crc (counterBody b (c <<< shift)) :: counterBody b (c <<< shift)⟩)

/-- The hypothesis enumeration of `find_counter_fields` (lines 153-154):
each of the 4 body byte positions crossed with the three bit-field shapes
full byte, upper nibble, lower nibble. -/
def hypList : List (Nat × Nat × Nat) :=
  (List.range 4).flatMap (fun b => [(b, 0xFF, 0), (b, 0x0F, 4), (b, 0x0F, 0)])

/-- The body of `find_counter_fields` (lines 152-173) over an explicit list
of remaining hypotheses.  For each hypothesis the cycling frames are sent,
the DTCs are read once, and the hypothesis is reported (the Python `print`,
collected here into the result list as `(byte, mask << shift)`) exactly when
the status looked up for `e09402` differs from `0x2f`. -/
def find_counter_fieldsAux (env : Env) (s : List CanMsg) :
    List (Nat × Nat × Nat) → List CanMsg × Except RunErr (List (Nat × Nat))
  | [] => (s, .ok [])
  | (b, mask, shift) :: rest =>
    let s' := s ++ hypFrames b mask shift
    match readHealth [0xe0, 0x94, 0x02] (get_dtcs (env.dtcResp s') 0x0C) with
    | .error e => (s', .error e)
    | .ok st =>
      match find_counter_fieldsAux env s' rest with
      | (sf, .error e) => (sf, .error e)
      | (sf, .ok reps) =>
        (sf, .ok (if st ≠ some 0x2f then (b, mask <<< shift) :: reps else reps))

/-- `find_counter_fields` (lines 152-173). -/
def find_counter_fields (env : Env) (s : List CanMsg) :
    List CanMsg × Except RunErr (List (Nat × Nat)) :=
  find_counter_fieldsAux env s hypList

/-! ## Test environments

The discovery claims quantify over the behaviour of the ECU oracle; the
following environments build `Env`s from simple status functions, mirroring
the test doubles described in the specification. -/

/-- The payload of the most recently broadcast frame (`[]` if none). -/
def lastPayload (s : List CanMsg) : List Nat :=
  (s.getLast?.map CanMsg.data).getD []

/-- A well-formed single-record response reporting status `v` for the
checksum-health DTC `e09404`. -/
def e09404Resp (v : Nat) : List Nat :=
  [0x59, 0x02, 0x0C, 0xe0, 0x94, 0x04, v]

/-- A well-formed single-record response reporting status `v` for the
counter-health DTC `e09402`. -/
def e09402Resp (v : Nat) : List Nat :=
  [0x59, 0x02, 0x0C, 0xe0, 0x94, 0x02, v]

/-- An oracle double whose `e09404` status is a function of the payload most
recently broadcast on the bus; it always answers on the first attempt. -/
def statusEnv (st : List Nat → Nat) : Env :=
  ⟨fun sent _ _ => some (e09404Resp (st (lastPayload sent)))⟩

/-- An oracle double whose `e09402` status is a function of how many frames
have been broadcast so far; it always answers on the first attempt. -/
def lenEnv (st : Nat → Nat) : Env :=
  ⟨fun sent _ _ => some (e09402Resp (st sent.length))⟩

/-- An environment in which every diagnostic request times out. -/
def noRespEnv : Env :=
  ⟨fun _ _ _ => none⟩

/-- An environment answering every request with a well-formed DTC response
containing zero records. -/
def emptyTableEnv : Env :=
  ⟨fun _ _ _ => some [0x59, 0x02, 0x0C]⟩

/-- The end-to-end scenario oracle of the specification: status `0x2e`
exactly for the probed pattern `[0x37, 0x01, 0x02, 0x03, 0x04]`, status
`0x2f` for every other payload. -/
def c3Oracle (p : List Nat) : Nat :=
  if p = [0x37, 0x01, 0x02, 0x03, 0x04] then 0x2e else 0x2f

/-! ## Basic lemmas about the embedded functions -/

theorem lastPayload_append_burst (s : List CanMsg) (p : List Nat) :
    lastPayload (s ++ burst p) = p := by
  simp [lastPayload, burst, List.getLast?_append]

theorem decode_e09404Resp (v : Nat) :
    decode_dtcdata (some (e09404Resp v)) = .ok [([0xe0, 0x94, 0x04], v)] := by
  simp [decode_dtcdata, e09404Resp, decodeRecords, buildTable, dictInsert,
    List.range_succ]

theorem decode_e09402Resp (v : Nat) :
    decode_dtcdata (some (e09402Resp v)) = .ok [([0xe0, 0x94, 0x02], v)] := by
  simp [decode_dtcdata, e09402Resp, decodeRecords, buildTable, dictInsert,
    List.range_succ]

theorem range_three : List.range 3 = [0, 1, 2] := rfl

/-- If the very first attempt gets a response, `get_dtcs` decodes it. -/
theorem get_dtcs_first (resp : Responder) (mask : Nat) (r : List Nat)
    (h : resp 0 [0x19, 0x02, mask] = some r) :
    get_dtcs resp mask = (decode_dtcdata (some r)).map some := by
  simp only [get_dtcs, range_three, get_dtcsTries, h]

theorem verify_statusEnv (st : List Nat → Nat) (s : List CanMsg) (p : List Nat) :
    verify_checksum (statusEnv st) s p
      = (s ++ burst p, .ok (decide (st p = 0x2e))) := by
  have hresp : (statusEnv st).dtcResp (s ++ burst p) 0 [0x19, 0x02, 0x0C]
      = some (e09404Resp (st p)) := by
    simp [statusEnv, lastPayload_append_burst]
  simp only [verify_checksum]
  rw [get_dtcs_first _ _ _ hresp, decode_e09404Resp]
  simp [readHealth, lookupTable, Except.map, List.find?]

/-! ## Claim C7: retry behaviour of `get_dtcs` -/

/-- C7: for every status mask, `get_dtcs` issues the diagnostic request up to
3 times, returns the decoded table of the first attempt that yields a
response, returns the absent result `none` (raising nothing itself) once all
3 attempts time out, and never consults a fourth attempt. -/
theorem get_dtcs_retries_three (resp : Responder) (mask : Nat) :
    ((∀ t, t < 3 → resp t [0x19, 0x02, mask] = none) → get_dtcs resp mask = .ok none)
    ∧ (∀ k r, k < 3 → (∀ t, t < k → resp t [0x19, 0x02, mask] = none) →
        resp k [0x19, 0x02, mask] = some r →
        get_dtcs resp mask = (decode_dtcdata (some r)).map some)
    ∧ (∀ resp' : Responder,
        (∀ t, t < 3 → resp t [0x19, 0x02, mask] = resp' t [0x19, 0x02, mask]) →
        get_dtcs resp mask = get_dtcs resp' mask) := by
  refine ⟨?_, ?_, ?_⟩
  · intro h
    simp only [get_dtcs, range_three, get_dtcsTries, h 0 (by omega), h 1 (by omega),
      h 2 (by omega)]
  · intro k r hk h0 hr
    interval_cases k
    · simp only [get_dtcs, range_three, get_dtcsTries, hr]
    · simp only [get_dtcs, range_three, get_dtcsTries, h0 0 (by omega), hr]
    · simp only [get_dtcs, range_three, get_dtcsTries, h0 0 (by omega),
        h0 1 (by omega), hr]
  · intro resp' h
    simp only [get_dtcs, range_three, get_dtcsTries, h 0 (by omega), h 1 (by omega),
      h 2 (by omega)]

theorem get_dtcs_retries_three_witness :
    get_dtcs (fun _ _ => none) 0x0C = .ok none :=
  (get_dtcs_retries_three (fun _ _ => none) 0x0C).1 (fun _ _ => rfl)

/-! ## Claim C8: the 16-frame broadcast burst of `verify_checksum` -/

/-- C8: for every payload and environment, `verify_checksum` extends the
trace of sent frames by exactly 16 copies of the probe frame (regardless of
anything the oracle does), and its outcome depends on the oracle only
through a read taken after the full burst is on the trace. -/
theorem verify_checksum_burst_sixteen (env : Env) (s : List CanMsg) (p : List Nat) :
    (verify_checksum env s p).1 = s ++ List.replicate 16 ⟨0x3FD, p⟩
    ∧ (verify_checksum env s p).1.length = s.length + 16
    ∧ ∀ env' : Env,
        env'.dtcResp (s ++ List.replicate 16 ⟨0x3FD, p⟩)
          = env.dtcResp (s ++ List.replicate 16 ⟨0x3FD, p⟩) →
        verify_checksum env' s p = verify_checksum env s p := by
  refine ⟨rfl, by simp [verify_checksum, burst], ?_⟩
  intro env' h
  simp only [verify_checksum, burst] at h ⊢
  rw [h]

theorem verify_checksum_burst_sixteen_witness :
    (verify_checksum noRespEnv [] [0x01]).1 = [] ++ List.replicate 16 ⟨0x3FD, [0x01]⟩
    ∧ verify_checksum noRespEnv [] [0x01] = verify_checksum noRespEnv [] [0x01] :=
  ⟨(verify_checksum_burst_sixteen noRespEnv [] [0x01]).1,
    (verify_checksum_burst_sixteen noRespEnv [] [0x01]).2.2 noRespEnv rfl⟩

/-! ## Claim C9: a vanished table aborts the discovery step -/

/-- C9: when `get_dtcs` exhausts its retries and returns `None`, the callers
`verify_checksum` and `find_counter_fields` do not treat this as the
`"missing"` status: the `dtcs.get` lookup on `None` raises an
`AttributeError` and the discovery step aborts.  The `"missing"` default
(here: a decoded table without the key, yielding `False`) applies only when
a table was actually decoded. -/
theorem absent_table_lookup_raises :
    (∀ (s : List CanMsg) (p : List Nat),
        verify_checksum noRespEnv s p
          = (s ++ List.replicate 16 ⟨0x3FD, p⟩, .error .attributeError))
    ∧ find_counter_fields noRespEnv []
        = (hypFrames 0 0xFF 0, .error .attributeError)
    ∧ (∀ (s : List CanMsg) (p : List Nat),
        verify_checksum emptyTableEnv s p
          = (s ++ List.replicate 16 ⟨0x3FD, p⟩, .ok false))
    ∧ get_dtcs (noRespEnv.dtcResp []) 0x0C = .ok none :=
  ⟨fun _ _ => rfl, rfl, fun _ _ => rfl, rfl⟩

/-! ## Claim C10: `get_supported_dtcs` has no retry and no graceful timeout -/

/-- C10: `get_supported_dtcs` consults only a single attempt (no retry), and
when that attempt yields no response the `None` is passed straight into
`decode_dtcdata`, whose subscript raises a `TypeError` — in contrast to
`get_dtcs`, which returns the absent result gracefully. -/
theorem get_supported_dtcs_no_retry :
    (∀ resp : Responder, resp 0 [0x19, 0x0A] = none →
        get_supported_dtcs resp = .error .typeError)
    ∧ (∀ resp resp' : Responder, resp 0 [0x19, 0x0A] = resp' 0 [0x19, 0x0A] →
        get_supported_dtcs resp = get_supported_dtcs resp')
    ∧ get_dtcs (fun _ _ => none) 0x0C = .ok none := by
  refine ⟨?_, ?_, rfl⟩
  · intro resp h
    simp [get_supported_dtcs, h, decode_dtcdata]
  · intro resp resp' h
    simp [get_supported_dtcs, h]

theorem get_supported_dtcs_no_retry_witness :
    get_supported_dtcs (fun _ _ => none) = .error .typeError :=
  get_supported_dtcs_no_retry.1 (fun _ _ => none) rfl

/-! ## The linear candidate search of `find_checksum` -/

theorem find_checksumAux_invalid (st : List Nat → Nat) (body : List Nat)
    (cs : List Nat) :
    ∀ s : List CanMsg, (∀ c ∈ cs, st (c :: body) ≠ 0x2e) →
    find_checksumAux (statusEnv st) body s cs
      = (s ++ cs.flatMap (fun c => burst (c :: body)), .error .noValidChecksumFound) := by
  induction cs with
  | nil => intro s _; simp [find_checksumAux]
  | cons c cs ih =>
    intro s h
    have hd : decide (st (c :: body) = 0x2e) = false :=
      decide_eq_false (h c (List.mem_cons_self c cs))
    simp only [find_checksumAux, verify_statusEnv, hd, Bool.false_eq_true, if_false]
    rw [ih (s ++ burst (c :: body)) (fun x hx => h x (List.mem_cons_of_mem c hx))]
    simp

theorem find_checksumAux_found (st : List Nat → Nat) (body : List Nat) (c0 : Nat)
    (hval : st (c0 :: body) = 0x2e) (cs2 : List Nat) :
    ∀ (cs1 : List Nat) (s : List CanMsg), (∀ c ∈ cs1, st (c :: body) ≠ 0x2e) →
    find_checksumAux (statusEnv st) body s (cs1 ++ c0 :: cs2)
      = (s ++ (cs1 ++ [c0]).flatMap (fun c => burst (c :: body)), .ok c0) := by
  intro cs1
  induction cs1 with
  | nil =>
    intro s _
    have hd : decide (st (c0 :: body) = 0x2e) = true := by simp [hval]
    simp [find_checksumAux, verify_statusEnv, hd]
  | cons c cs1 ih =>
    intro s h
    have hd : decide (st (c :: body) = 0x2e) = false :=
      decide_eq_false (h c (List.mem_cons_self c cs1))
    simp only [List.cons_append, find_checksumAux, verify_statusEnv, hd,
      Bool.false_eq_true, if_false, List.append_eq]
    rw [ih (s ++ burst (c :: body)) (fun x hx => h x (List.mem_cons_of_mem c hx))]
    simp

/-- Splitting the candidate range `0x00..0xFF` at the first valid value. -/
theorem range_256_split (c0 : Nat) (hc0 : c0 < 256) :
    List.range 256
      = List.range c0 ++ c0 :: ((List.range (255 - c0)).map (fun i => c0 + (i + 1))) := by
  conv_lhs => rw [show (256 : Nat) = c0 + ((255 - c0) + 1) by omega]
  rw [List.range_add, List.range_succ_eq_map]
  simp [Function.comp_def, Nat.succ_eq_add_one, Nat.add_comm]

/-- Shared engine for C1 and C3: against a status oracle that is a function
of the probed payload, `find_checksum` stops at the first (in ascending
order) candidate whose status is `0x2e`, having burst every candidate up to
and including it. -/
theorem find_checksum_statusEnv_found (st : List Nat → Nat) (body : List Nat)
    (c0 : Nat) (hc0 : c0 < 256) (hval : st (c0 :: body) = 0x2e)
    (hmin : ∀ c, c < c0 → st (c :: body) ≠ 0x2e) :
    find_checksum (statusEnv st) [] body
      = ((List.range (c0 + 1)).flatMap (fun c => burst (c :: body)), .ok c0) := by
  rw [find_checksum, range_256_split c0 hc0,
    find_checksumAux_found st body c0 hval _ (List.range c0) []
      (fun c hc => hmin c (List.mem_range.mp hc))]
  rw [← List.range_succ]
  simp

/-! ## Claim C1: `find_checksum` is an ascending exhaustive first-hit search -/

/-- C1: for every 4-byte body, `find_checksum` tries the checksum candidates
`0x00..0xFF` in ascending order, prefixing each to the body and testing it
with `verify_checksum`; it returns the first accepted candidate, and if no
candidate is accepted it fails with the no-valid-checksum error after having
burst all 256 candidates. -/
theorem find_checksum_searches_ascending (st : List Nat → Nat) (body : List Nat)
    (hlen : body.length = 4) :
    ((∀ c, c < 256 → st (c :: body) ≠ 0x2e) →
      find_checksum (statusEnv st) [] body
        = ((List.range 256).flatMap (fun c => burst (c :: body)),
            .error .noValidChecksumFound))
    ∧ (∀ c0, c0 < 256 → st (c0 :: body) = 0x2e →
        (∀ c, c < c0 → st (c :: body) ≠ 0x2e) →
      find_checksum (statusEnv st) [] body
        = ((List.range (c0 + 1)).flatMap (fun c => burst (c :: body)), .ok c0)) := by
  constructor
  · intro h
    have := find_checksumAux_invalid st body (List.range 256) []
      (fun c hc => h c (List.mem_range.mp hc))
    simpa [find_checksum] using this
  · intro c0 hc0 hval hmin
    exact find_checksum_statusEnv_found st body c0 hc0 hval hmin

theorem find_checksum_searches_ascending_witness :
    find_checksum (statusEnv (fun _ => 0)) [] [1, 2, 3, 4]
      = ((List.range 256).flatMap (fun c => burst (c :: [1, 2, 3, 4])),
          .error .noValidChecksumFound) :=
  (find_checksum_searches_ascending (fun _ => 0) [1, 2, 3, 4] rfl).1
    (fun _ _ => by decide)

/-! ## Claim C3: the acceptance status of `verify_checksum` -/

/-- C3: `verify_checksum` returns `True` iff the status looked up for DTC
`e09404` after the probe equals `0x2e`; the distinct healthy-mechanism code
`0x2f` yields `False`; and in the end-to-end scenario (status `0x2f`
everywhere except `0x2e` at probe `[0x37, 0x01, 0x02, 0x03, 0x04]`),
`find_checksum` on body `[0x01, 0x02, 0x03, 0x04]` returns `0x37`. -/
theorem verify_checksum_status_iff :
    (∀ (st : List Nat → Nat) (s : List CanMsg) (p : List Nat),
        verify_checksum (statusEnv st) s p
          = (s ++ burst p, .ok (decide (st p = 0x2e))))
    ∧ (∀ (st : List Nat → Nat) (s : List CanMsg) (p : List Nat), st p = 0x2f →
        (verify_checksum (statusEnv st) s p).2 = .ok false)
    ∧ (find_checksum (statusEnv c3Oracle) [] [0x01, 0x02, 0x03, 0x04]).2 = .ok 0x37 := by
  refine ⟨verify_statusEnv, ?_, ?_⟩
  · intro st s p h
    rw [verify_statusEnv]
    simp [h]
  · have hval : c3Oracle (0x37 :: [0x01, 0x02, 0x03, 0x04]) = 0x2e := by decide
    have hmin : ∀ c, c < 0x37 → c3Oracle (c :: [0x01, 0x02, 0x03, 0x04]) ≠ 0x2e := by
      intro c hc
      simp only [c3Oracle]
      rw [if_neg]
      · decide
      · simp
        omega
    rw [find_checksum_statusEnv_found c3Oracle [0x01, 0x02, 0x03, 0x04] 0x37
      (by omega) hval hmin]

theorem verify_checksum_status_iff_witness :
    (verify_checksum (statusEnv (fun _ => 0x2f)) [] [0x00]).2 = .ok false :=
  verify_checksum_status_iff.2.1 (fun _ => 0x2f) [] [0x00] rfl

/-! ## Dictionary lemmas for the decoded DTC table -/

theorem find?_map_replace (t : DtcTable) (k : List Nat) (v : Nat) (k' : List Nat)
    (hne : k' ≠ k) :
    (t.map (fun r => if r.1 = k then (k, v) else r)).find? (fun r => decide (r.1 = k'))
      = t.find? (fun r => decide (r.1 = k')) := by
  induction t with
  | nil => rfl
  | cons r t ih =>
    simp only [List.map_cons]
    by_cases hr : r.1 = k
    · rw [show (if r.1 = k then (k, v) else r) = (k, v) from if_pos hr]
      rw [List.find?_cons_of_neg _ (by simp; exact fun h => hne h.symm : _),
        List.find?_cons_of_neg _ (by simp [hr]; exact fun h => hne h.symm : _)]
      exact ih
    · rw [show (if r.1 = k then (k, v) else r) = r from if_neg hr]
      by_cases hd : r.1 = k'
      · rw [List.find?_cons_of_pos _ (by simp [hd] : _),
          List.find?_cons_of_pos _ (by simp [hd] : _)]
      · rw [List.find?_cons_of_neg _ (by simp [hd] : _),
          List.find?_cons_of_neg _ (by simp [hd] : _)]
        exact ih

theorem find?_map_replace_self (t : DtcTable) (k : List Nat) (v : Nat)
    (h : t.any (fun r => decide (r.1 = k)) = true) :
    (t.map (fun r => if r.1 = k then (k, v) else r)).find? (fun r => decide (r.1 = k))
      = some (k, v) := by
  induction t with
  | nil => simp at h
  | cons r t ih =>
    simp only [List.map_cons]
    by_cases hr : r.1 = k
    · rw [show (if r.1 = k then (k, v) else r) = (k, v) from if_pos hr]
      rw [List.find?_cons_of_pos _ (by simp : _)]
    · rw [show (if r.1 = k then (k, v) else r) = r from if_neg hr]
      rw [List.find?_cons_of_neg _ (by simp [hr] : _)]
      have hd : decide (r.1 = k) = false := decide_eq_false hr
      simp only [List.any_cons, hd, Bool.false_or] at h
      exact ih h

/-- The lookup semantics of a Python dict assignment. -/
theorem lookupTable_dictInsert (t : DtcTable) (k : List Nat) (v : Nat) (k' : List Nat) :
    lookupTable (dictInsert t k v) k'
      = if k' = k then some v else lookupTable t k' := by
  unfold dictInsert
  by_cases hmem : t.any (fun r => decide (r.1 = k)) = true
  · rw [if_pos hmem]
    by_cases hk : k' = k
    · subst hk
      rw [if_pos rfl]
      unfold lookupTable
      rw [find?_map_replace_self t k' v hmem]
      rfl
    · rw [if_neg hk]
      unfold lookupTable
      rw [find?_map_replace t k v k' hk]
  · rw [if_neg hmem]
    rw [Bool.not_eq_true, List.any_eq_false] at hmem
    unfold lookupTable
    rw [List.find?_append]
    by_cases hk : k' = k
    · subst hk
      have hnone : t.find? (fun r => decide (r.1 = k')) = none := by
        rw [List.find?_eq_none]
        intro x hx hdx
        exact hmem x hx hdx
      have hkv : decide (((k', v) : List Nat × Nat).1 = k') = true := by simp
      rw [hnone, if_pos rfl]
      simp only [List.find?, hkv, Option.or]
      rfl
    · have hkv : decide (((k, v) : List Nat × Nat).1 = k') = false :=
        decide_eq_false (fun h => hk h.symm)
      have hone : List.find? (fun r => decide (r.1 = k')) [(k, v)] = none := by
        simp only [List.find?, hkv]
      rw [hone, if_neg hk]
      cases hf : t.find? (fun r => decide (r.1 = k')) <;> simp [Option.or, hf]

/-- The status byte of the last record carrying identifier `k`. -/
def lastStatus (recs : List (List Nat × Nat)) (k : List Nat) : Option Nat :=
  (recs.reverse.find? (fun r => decide (r.1 = k))).map Prod.snd

theorem lookupTable_foldl (k : List Nat) :
    ∀ (recs : List (List Nat × Nat)) (t : DtcTable),
    lookupTable (recs.foldl (fun t r => dictInsert t r.1 r.2) t) k
      = (lastStatus recs k).or (lookupTable t k) := by
  intro recs
  induction recs with
  | nil => intro t; simp [lastStatus]
  | cons r rs ih =>
    intro t
    simp only [List.foldl_cons]
    rw [ih]
    simp only [lastStatus, List.reverse_cons, List.find?_append]
    cases hf : rs.reverse.find? (fun q => decide (q.1 = k)) with
    | some q => simp [Option.or]
    | none =>
      simp only [Option.or]
      rw [lookupTable_dictInsert]
      by_cases hk : k = r.1
      · simp [List.find?, decide_eq_true_eq, hk, if_pos]
      · have : decide (r.1 = k) = false := decide_eq_false (fun h => hk h.symm)
        simp [List.find?, this, if_neg hk]

theorem lookupTable_buildTable (recs : List (List Nat × Nat)) (k : List Nat) :
    lookupTable (buildTable recs) k = lastStatus recs k := by
  rw [buildTable, lookupTable_foldl]
  cases lastStatus recs k <;> simp [Option.or, lookupTable, List.find?]

/-- A successful decode always yields the fold of the extracted records. -/
theorem decode_ok_eq (l : List Nat) (t : DtcTable)
    (h : decode_dtcdata (some l) = .ok t) :
    t = buildTable (decodeRecords l) := by
  cases l with
  | nil => simp [decode_dtcdata] at h
  | cons tag rest =>
    simp only [decode_dtcdata] at h
    split at h
    · simp at h
    · split at h
      · simp at h
      · injection h with h2
        exact h2.symm

/-! ## Claim C6: decoding is pure; duplicate identifiers are last-write-wins -/

/-- C6: `decode_dtcdata` is a pure function (it is a Lean function of the
input bytes alone), and whenever an input decodes successfully, looking up
any identifier in the resulting table yields the status byte of the last
record in the input carrying that identifier (`lastStatus`): in particular,
when two records share an identifier, the later record wins, the records
being processed in input order. -/
theorem decode_dtcdata_last_write_wins (l : List Nat) (t : DtcTable)
    (k : List Nat) (h : decode_dtcdata (some l) = .ok t) :
    lookupTable t k = lastStatus (decodeRecords l) k := by
  rw [decode_ok_eq l t h, lookupTable_buildTable]

theorem decode_dtcdata_last_write_wins_witness :
    decode_dtcdata
        (some [0x59, 0x02, 0x0C, 0x01, 0x02, 0x03, 0x05, 0x01, 0x02, 0x03, 0x09])
      = .ok [([0x01, 0x02, 0x03], 0x09)]
    ∧ lookupTable [([0x01, 0x02, 0x03], 0x09)] [0x01, 0x02, 0x03] = some 0x09 := by
  constructor
  · rfl
  · have h := decode_dtcdata_last_write_wins
      [0x59, 0x02, 0x0C, 0x01, 0x02, 0x03, 0x05, 0x01, 0x02, 0x03, 0x09]
      [([0x01, 0x02, 0x03], 0x09)] [0x01, 0x02, 0x03] (by rfl)
    rw [h]
    rfl

/-! ## Claim C4: the failure condition of the decoder -/

/-- The exact failure condition of `decode_dtcdata` on a present input. -/
theorem decode_dtcdata_error_iff (l : List Nat) :
    (∃ e, decode_dtcdata (some l) = .error e)
      ↔ (l = [] ∨ l.head? ≠ some 0x59 ∨ ((l.length : Int) - 3) % 4 ≠ 0) := by
  cases l with
  | nil => simp [decode_dtcdata]
  | cons tag rest =>
    simp only [decode_dtcdata, List.head?_cons]
    by_cases ht : tag = 0x59
    · subst ht
      by_cases hm : (((0x59 :: rest).length : Int) - 3) % 4 = 0
      · rw [if_neg (by simp), if_neg (by simpa using hm)]
        simp at hm ⊢ <;> omega
      · rw [if_neg (by simp), if_pos (by simpa using hm)]
        simp at hm ⊢ <;> omega
    · rw [if_pos ht]
      simp [ht]

/-- C4: `decode_dtcdata` fails (and never returns a table) exactly when the
input is empty, its first byte is not the positive-response tag `0x59`, or
its length minus the 3-byte header is not a multiple of 4 (Python `%`
semantics); in particular every input of 3 header bytes plus a body of
length `L`, `1 ≤ L ≤ 50`, `L` not divisible by 4, is rejected. -/
theorem decode_dtcdata_malformed_iff :
    (∀ l : List Nat,
        (∃ e, decode_dtcdata (some l) = .error e)
          ↔ (l = [] ∨ l.head? ≠ some 0x59 ∨ ((l.length : Int) - 3) % 4 ≠ 0))
    ∧ (∀ (l : List Nat) (L : Nat), 1 ≤ L → L ≤ 50 → L % 4 ≠ 0 →
        l.length = 3 + L → ∃ e, decode_dtcdata (some l) = .error e) := by
  refine ⟨decode_dtcdata_error_iff, ?_⟩
  intro l L h1 _ hm hl
  rw [decode_dtcdata_error_iff]
  right; right
  rw [hl]
  push_cast
  omega

theorem decode_dtcdata_malformed_iff_witness :
    ∃ e, decode_dtcdata (some [0x59, 0x00, 0x00, 0x01]) = .error e :=
  decode_dtcdata_malformed_iff.2 [0x59, 0x00, 0x00, 0x01] 1 (by decide) (by decide)
    (by decide) rfl

/-! ## Claim C5: record count of a well-formed decode -/

/-- C5 counterexample: an input of one header byte followed by `N×4 = 4`
body bytes (`N = 1`) is rejected by `decode_dtcdata` — the decoder requires
a 3-byte header, so the claim as stated fails. -/
theorem decode_dtcdata_one_byte_header_rejected :
    decode_dtcdata (some ([0x59] ++ [0xe0, 0x94, 0x04, 0x2f]))
      = .error (.badLength 5) := rfl

theorem foldl_dictInsert_length :
    ∀ (recs : List (List Nat × Nat)) (t : DtcTable),
    (recs.map Prod.fst).Nodup →
    (∀ r ∈ recs, ∀ q ∈ t, q.1 ≠ r.1) →
    (recs.foldl (fun t r => dictInsert t r.1 r.2) t).length
      = t.length + recs.length := by
  intro recs
  induction recs with
  | nil =>
    intro t _ _
    simp
  | cons r rs ih =>
    intro t hnd hfresh
    simp only [List.foldl_cons]
    have hins : dictInsert t r.1 r.2 = t ++ [(r.1, r.2)] := by
      rw [dictInsert, if_neg]
      rw [Bool.not_eq_true, List.any_eq_false]
      intro q hq
      simpa using hfresh r (List.mem_cons_self r rs) q hq
    have hnd' : ((r :: rs).map Prod.fst).Nodup := hnd
    rw [List.map_cons, List.nodup_cons] at hnd'
    rw [hins, ih]
    · simp only [List.length_append, List.length_cons, List.length_nil]
      omega
    · exact hnd'.2
    · intro x hx q hq
      rcases List.mem_append.mp hq with hq | hq
      · exact hfresh x (List.mem_cons_of_mem r hx) q hq
      · rcases List.mem_singleton.mp hq with rfl
        intro hqx
        exact hnd'.1 (List.mem_map.mpr ⟨x, hx, hqx.symm⟩)

/-- C5 (amended): with the decoder's actual 3-byte header (first byte
`0x59`), an input of header plus `N×4` body bytes decodes successfully into
exactly `N` records; the returned table has exactly `N` entries whenever the
`N` record identifiers are pairwise distinct (duplicate identifiers collapse
by last-write-wins). -/
theorem decode_dtcdata_wellformed_count (N h1 h2 : Nat) (body : List Nat)
    (hb : body.length = 4 * N) :
    ∃ t, decode_dtcdata (some (0x59 :: h1 :: h2 :: body)) = .ok t
      ∧ (decodeRecords (0x59 :: h1 :: h2 :: body)).length = N
      ∧ (((decodeRecords (0x59 :: h1 :: h2 :: body)).map Prod.fst).Nodup →
          t.length = N) := by
  have hlen : (0x59 :: h1 :: h2 :: body).length = 3 + 4 * N := by
    simp [hb]
    omega
  have hmod : ¬((((0x59 :: h1 :: h2 :: body).length : Int) - 3) % 4 ≠ 0) := by
    rw [hlen]
    push_cast
    omega
  have hok : decode_dtcdata (some (0x59 :: h1 :: h2 :: body))
      = .ok (buildTable (decodeRecords (0x59 :: h1 :: h2 :: body))) := by
    simp only [decode_dtcdata]
    rw [if_neg (by simp), if_neg hmod]
  have hrecs : (decodeRecords (0x59 :: h1 :: h2 :: body)).length = N := by
    simp only [decodeRecords, List.length_map, List.length_range, hlen]
    omega
  refine ⟨_, hok, hrecs, ?_⟩
  intro hnd
  rw [buildTable, foldl_dictInsert_length _ [] hnd (by intro x _ q hq; simp at hq)]
  simpa using hrecs

theorem decode_dtcdata_wellformed_count_witness :
    ∃ t, decode_dtcdata (some (0x59 :: 0x02 :: 0x0C ::
        [0xe0, 0x94, 0x02, 0x2f, 0xe0, 0x94, 0x04, 0x2e])) = .ok t
      ∧ (decodeRecords (0x59 :: 0x02 :: 0x0C ::
          [0xe0, 0x94, 0x02, 0x2f, 0xe0, 0x94, 0x04, 0x2e])).length = 2
      ∧ (((decodeRecords (0x59 :: 0x02 :: 0x0C ::
          [0xe0, 0x94, 0x02, 0x2f, 0xe0, 0x94, 0x04, 0x2e])).map Prod.fst).Nodup →
          t.length = 2) :=
  decode_dtcdata_wellformed_count 2 0x02 0x0C
    [0xe0, 0x94, 0x02, 0x2f, 0xe0, 0x94, 0x04, 0x2e] rfl

/-! ## Claim C2: hypothesis enumeration of `find_counter_fields` -/

/-- Transparent specification of the reporting loop: for each remaining
hypothesis, the health status is sampled after its cycling frames (the trace
has grown by `(mask + 1) * 4` frames) and the hypothesis is reported exactly
when that status differs from the healthy `0x2f`. -/
def fcfSpecAux (st : Nat → Nat) : Nat → List (Nat × Nat × Nat) → List (Nat × Nat)
  | _, [] => []
  | n, (b, mask, shift) :: rest =>
    if st (n + (mask + 1) * 4) ≠ 0x2f then
      (b, mask <<< shift) :: fcfSpecAux st (n + (mask + 1) * 4) rest
    else fcfSpecAux st (n + (mask + 1) * 4) rest

theorem hypFrames_length (b mask shift : Nat) :
    (hypFrames b mask shift).length = (mask + 1) * 4 := by
  simp [hypFrames, List.length_flatten, Function.comp_def]
  ring

theorem readHealth_lenEnv (st : Nat → Nat) (s : List CanMsg) :
    readHealth [0xe0, 0x94, 0x02] (get_dtcs ((lenEnv st).dtcResp s) 0x0C)
      = .ok (some (st s.length)) := by
  rw [get_dtcs_first ((lenEnv st).dtcResp s) 0x0C (e09402Resp (st s.length)) rfl,
    decode_e09402Resp]
  simp [readHealth, Except.map, lookupTable, List.find?]

theorem find_counter_fieldsAux_lenEnv (st : Nat → Nat)
    (hyps : List (Nat × Nat × Nat)) :
    ∀ s : List CanMsg,
    find_counter_fieldsAux (lenEnv st) s hyps
      = (s ++ hyps.flatMap (fun h => hypFrames h.1 h.2.1 h.2.2),
          .ok (fcfSpecAux st s.length hyps)) := by
  induction hyps with
  | nil =>
    intro s
    simp [find_counter_fieldsAux, fcfSpecAux]
  | cons h rest ih =>
    obtain ⟨b, mask, shift⟩ := h
    intro s
    simp only [find_counter_fieldsAux, readHealth_lenEnv]
    rw [ih (s ++ hypFrames b mask shift)]
    simp only [fcfSpecAux, List.length_append, hypFrames_length]
    by_cases hst : st (s.length + (mask + 1) * 4) = 0x2f
    · simp [hst, List.append_assoc]
    · simp [hst, List.append_assoc]

/-- The full trace of frames broadcast by one `find_counter_fields` run. -/
def c2Trace : List CanMsg :=
  hypList.flatMap (fun h => hypFrames h.1 h.2.1 h.2.2)

/-- The 12 counter-field hypotheses as reported (`(byte, mask << shift)`),
each paired with the number of frames on the bus at the moment its
counter-health DTC is read. -/
def c2Points : List ((Nat × Nat) × Nat) :=
  [((0, 0xFF), 1024), ((0, 0xF0), 1088), ((0, 0x0F), 1152),
   ((1, 0xFF), 2176), ((1, 0xF0), 2240), ((1, 0x0F), 2304),
   ((2, 0xFF), 3328), ((2, 0xF0), 3392), ((2, 0x0F), 3456),
   ((3, 0xFF), 4480), ((3, 0xF0), 4544), ((3, 0x0F), 4608)]

theorem fcfSpecAux_hypList (st : Nat → Nat) :
    fcfSpecAux st 0 hypList
      = (c2Points.filter (fun q => decide (st q.2 ≠ 0x2f))).map Prod.fst := by
  simp [hypList, c2Points, fcfSpecAux, List.filter_cons, apply_ite (List.map Prod.fst)]

/-- C2: against an always-answering oracle whose `e09402` status is a
function of how many frames were broadcast, `find_counter_fields` sends
exactly the cycling frames of the 12 hypotheses (4 byte positions × the
full-byte/upper-nibble/lower-nibble shapes, each counter range cycled 4
times), reads the counter-health DTC once per hypothesis, and reports
exactly the hypotheses whose sampled status differs from the healthy `0x2f`;
every broadcast frame consists of a 4-byte body prefixed with its correct
`bmw_3fd_crc` checksum. -/
theorem find_counter_fields_hypotheses (st : Nat → Nat) :
    find_counter_fields (lenEnv st) []
      = (c2Trace,
          .ok ((c2Points.filter (fun q => decide (st q.2 ≠ 0x2f))).map Prod.fst))
    ∧ c2Trace.all (fun msg =>
        decide (msg.arbitration_id = 0x3FD)
        && decide (msg.data = bmw_3fd_crc msg.data.tail :: msg.data.tail)
        && decide (msg.data.tail.length = 4)) = true := by
  constructor
  · rw [find_counter_fields, find_counter_fieldsAux_lenEnv st hypList []]
    rw [show ([] : List CanMsg).length = 0 from rfl, fcfSpecAux_hypList]
    simp [c2Trace]
  · rw [List.all_eq_true]
    intro msg hmsg
    simp only [c2Trace, List.mem_flatMap] at hmsg
    obtain ⟨h, _, hmem⟩ := hmsg
    simp only [hypFrames, List.mem_map] at hmem
    obtain ⟨c, _, rfl⟩ := hmem
    simp [counterBody]

end BmwGws
